import Mathlib

/-!
Shallow embedding of the certificate-based offline ledger reconciliation
server (`ble-temp-server`).  The repository contains two implementations of
the `POST /sync` route: the one in `src/routes/transactionRoutes.ts`
(called the *refund variant* here, embedded as `syncTR`) and the one in the
unnamed source file `part_000` (the *change-certificate variant*, embedded
as `syncP0`).  Both are embedded faithfully, together with the
`POST /certificate` issuance route (`issueCertificate`) and the
canonicalization / signature verification logic of `CryptoService`.

The store (Supabase `users` and `transactions` tables) is modelled as
explicit state: association lists keyed by `id`.  JavaScript truthiness of
optional string fields (`undefined`, `null` and `""` are falsy) is modelled
by `truthyOptStr` / `jsOrStr`.  Amounts and balances are JavaScript numbers
carrying integer minor units, modelled as `Int`.  The asymmetric signature
primitive (tweetnacl) is an external collaborator; it is modelled by the
`CryptoModel` structure: a deterministic scheme in which the only signature
accepted for a message under the server key is the server's own signature
of that exact message.
-/

/-- Model of the external deterministic signature primitive used by
`CryptoService`: `sign` and `verify` over the server key pair, where
verification under the server's public key accepts exactly the server's
signature of the message, and distinct messages have distinct signatures. -/
structure CryptoModel where
  sign : String → String
  publicKey : String
  verify : String → String → String → Bool
  verify_eq : ∀ m s, verify m s publicKey = (s == sign m)
  sign_injective : Function.Injective sign

/-- A concrete instance of the signature model, used to evaluate the
development on closed inputs. -/
def demoCrypto : CryptoModel where
  sign m := "SIG:" ++ m
  publicKey := "PK"
  verify m s pk := pk == "PK" && s == ("SIG:" ++ m)
  verify_eq := by intro m s; simp
  sign_injective := by
    intro a b h
    simp only at h
    have h2 : ("SIG:" ++ a).data = ("SIG:" ++ b).data := by rw [h]
    simp only [String.data_append] at h2
    exact String.ext (List.append_cancel_left h2)

/-- Offline spending certificate, exactly the seven fields produced by the
`POST /certificate` route and consumed by `POST /sync`. -/
structure Certificate where
  user_id : String
  device_id : String
  tip_wallet_balance : Int
  timestamp : String
  nonce : String
  expiration : String
  signature : String
deriving DecidableEq

/-- One record of the client-submitted `transactions` array of a sync
request.  Optional string fields model properties that may be absent from
the JSON object. -/
structure TxRecord where
  transaction_id : String
  sender_user_id : Option String
  sender_device_id : Option String
  receiver_user_id : Option String
  receiver_device_id : Option String
  amount : Int
  sender_signature : Option String
deriving DecidableEq

/-- Row of the `users` table. -/
structure User where
  id : String
  balance : Int
  public_key : String
deriving DecidableEq

/-- Row of the `transactions` table (the inserted `payload` column keeps
the full original record). -/
structure TxRow where
  id : String
  sender_id : Option String
  receiver_id : String
  amount : Int
  signature : String
  payload : TxRecord
deriving DecidableEq

/-- The persistent store: the `users` and `transactions` tables. -/
structure Store where
  users : List User
  transactions : List TxRow
deriving DecidableEq

/-- JavaScript truthiness of a possibly-absent string: `undefined`, `null`
and the empty string are falsy. -/
def truthyOptStr : Option String → Bool
  | none => false
  | some s => !s.isEmpty

/-- JavaScript `a || d` for a possibly-absent string `a` and a string
default `d`. -/
def jsOrStr (o : Option String) (d : String) : String :=
  match o with
  | some s => if s.isEmpty then d else s
  | none => d

def lookupUser (s : Store) (uid : String) : Option User :=
  s.users.find? (fun u => u.id == uid)

def lookupTx (s : Store) (tid : String) : Option TxRow :=
  s.transactions.find? (fun r => r.id == tid)

def insertUser (s : Store) (u : User) : Store :=
  { s with users := s.users ++ [u] }

def insertTx (s : Store) (r : TxRow) : Store :=
  { s with transactions := s.transactions ++ [r] }

def updateUserBalance (s : Store) (uid : String) (b : Int) : Store :=
  { s with users := s.users.map (fun u => if u.id == uid then { u with balance := b } else u) }

/-- Join a list of already-stringified values with the `'|'` delimiter,
modelling the JavaScript `[...].join('|')`. -/
def joinBar : List String → String
  | [] => ""
  | [s] => s
  | s :: rest => s ++ "|" ++ joinBar rest

/-- The canonical signable string of a certificate: the six non-signature
fields in the fixed order `user_id, device_id, tip_wallet_balance,
timestamp, nonce, expiration`, joined by `'|'` (the `certToVerify` /
`dataToSign` / `certData` construction, identical at all three sites). -/
def certCanonical (c : Certificate) : String :=
  joinBar [c.user_id, c.device_id, Int.repr c.tip_wallet_balance, c.timestamp, c.nonce, c.expiration]

/-- Certificate verification as performed by the sync routes:
`CryptoService.verify(certToVerify, certificate.signature, publicKey)`. -/
def verifyCert (CM : CryptoModel) (c : Certificate) : Bool :=
  CM.verify (certCanonical c) c.signature CM.publicKey

/-- Sender attribution, identical in both sync variants: explicit
`sender_user_id` first; else the certificate's `user_id` when the
certificate's `device_id` strictly equals the transaction's
`sender_device_id`; else fall back to `sender_device_id`. -/
def resolveSenderId (cert? : Option Certificate) (tx : TxRecord) : Option String :=
  let senderId := tx.sender_user_id
  let senderId :=
    if truthyOptStr senderId then senderId
    else
      match cert? with
      | some c =>
        if (match tx.sender_device_id with
            | some d => c.device_id == d
            | none => false)
        then some c.user_id
        else senderId
      | none => senderId
  if truthyOptStr senderId then senderId else tx.sender_device_id

/-- Receiver resolution, identical in both sync variants:
`tx.receiver_user_id || tx.receiver_device_id || 'unknown'`. -/
def receiverIdOf (tx : TxRecord) : String :=
  jsOrStr tx.receiver_user_id (jsOrStr tx.receiver_device_id "unknown")

/-- Credit the receiver, identical in both sync variants: skip when
`receiverId` is falsy or `'unknown'`; else fetch-then-update the balance,
or provision the receiver with `balance = amount` and the
`PENDING_INITIALIZATION` public-key marker. -/
def creditReceiver (s : Store) (receiverId : String) (amount : Int) : Store :=
  if !receiverId.isEmpty && receiverId != "unknown" then
    match lookupUser s receiverId with
    | some receiver => updateUserBalance s receiverId (receiver.balance + amount)
    | none => insertUser s { id := receiverId, balance := amount, public_key := "PENDING_INITIALIZATION" }
  else s

/-- Per-request replay loop state: `results`, `totalSpent` and the store. -/
structure LoopState where
  results : List String
  totalSpent : Int
  store : Store
deriving DecidableEq

/-- The transaction row inserted for a counted transaction, shared by both
variants. -/
def rowOf (cert? : Option Certificate) (tx : TxRecord) : TxRow :=
  { id := tx.transaction_id
    sender_id := resolveSenderId cert? tx
    receiver_id := receiverIdOf tx
    amount := tx.amount
    signature := tx.sender_signature.getD ""
    payload := tx }

/-- One iteration of the replay loop of the refund variant
(`transactionRoutes.ts`): duplicates are skipped before anything is
recorded or counted; signature-less transactions are pushed to `results`
but neither inserted, credited nor counted. -/
def trStep (cert? : Option Certificate) (st : LoopState) (tx : TxRecord) : LoopState :=
  match lookupTx st.store tx.transaction_id with
  | some _ => st
  | none =>
    if !truthyOptStr tx.sender_signature then
      { st with results := st.results ++ [tx.transaction_id] }
    else
      let store1 := insertTx st.store (rowOf cert? tx)
      let store2 := creditReceiver store1 (receiverIdOf tx) tx.amount
      { results := st.results ++ [tx.transaction_id]
        totalSpent := st.totalSpent + tx.amount
        store := store2 }

/-- One iteration of the replay loop of the change-certificate variant
(`part_000`): every transaction is counted toward `totalSpent` and pushed
to `results` up front; duplicates and signature-less transactions then
skip the insert and the credit. -/
def p0Step (cert? : Option Certificate) (st : LoopState) (tx : TxRecord) : LoopState :=
  let st1 : LoopState :=
    { st with totalSpent := st.totalSpent + tx.amount
              results := st.results ++ [tx.transaction_id] }
  match lookupTx st1.store tx.transaction_id with
  | some _ => st1
  | none =>
    if !truthyOptStr tx.sender_signature then st1
    else
      let store1 := insertTx st1.store (rowOf cert? tx)
      let store2 := creditReceiver store1 (receiverIdOf tx) tx.amount
      { st1 with store := store2 }

/-- Body of a sync request. -/
structure SyncRequest where
  certificate : Option Certificate
  transactions : Option (List TxRecord)
  user_id : Option String
deriving DecidableEq

/-- Error outcomes of the sync routes: the two 400 rejections, the 401
certificate rejection, and the catch-all 500. -/
inductive SyncErr where
  | missingTransactions
  | missingUser
  | invalidCertificate
  | internalError
deriving DecidableEq

/-- Success response of the refund variant. -/
structure SyncOkTR where
  status : String
  processed : List String
  refunded : Int
  total_spent : Int
  balance : Int
deriving DecidableEq

/-- Success response of the change-certificate variant. -/
structure SyncOkP0 where
  status : String
  processed : List String
  new_certificate : Option Certificate
  total_spent : Int
  balance : Int
deriving DecidableEq

/-- The user whose balance the response reports:
`certificate ? certificate.user_id : user_id`. -/
def syncingUserIdOf (req : SyncRequest) : String :=
  match req.certificate with
  | some c => c.user_id
  | none => req.user_id.getD ""

/-- The final `balance` field: `finalUser ? finalUser.balance : 0`. -/
def finalBalance (s : Store) (uid : String) : Int :=
  match lookupUser s uid with
  | some u => u.balance
  | none => 0

/-- The shared request validation and certificate check: `400` when
`transactions` is not an array, `400` when neither `certificate` nor a
truthy `user_id` is present, `401` when a presented certificate fails
signature verification. -/
def syncPrecheck (CM : CryptoModel) (req : SyncRequest) : Option SyncErr :=
  match req.transactions with
  | none => some .missingTransactions
  | some _ =>
    if req.certificate.isNone && !truthyOptStr req.user_id then some .missingUser
    else
      match req.certificate with
      | some c => if !verifyCert CM c then some .invalidCertificate else none
      | none => none

/-- The replay loop of the refund variant. -/
def trLoop (cert? : Option Certificate) (store : Store) (txs : List TxRecord) : LoopState :=
  txs.foldl (trStep cert?) { results := [], totalSpent := 0, store := store }

/-- `POST /sync` of `transactionRoutes.ts` (the refund variant): validate,
replay the batch with `trStep`, then, when a certificate is present and
`unspent = tip_wallet_balance - totalSpent` is positive, fetch the
certificate holder (a missing holder row makes `.single()` error, caught
as a 500) and credit `unspent` to their balance; finally report the
re-fetched balance of the syncing user. -/
def syncTR (CM : CryptoModel) (store : Store) (req : SyncRequest) :
    (SyncErr ⊕ SyncOkTR) × Store :=
  match syncPrecheck CM req with
  | some e => (Sum.inl e, store)
  | none =>
    let st := trLoop req.certificate store (req.transactions.getD [])
    match req.certificate with
    | some c =>
      let unspent := c.tip_wallet_balance - st.totalSpent
      if unspent > 0 then
        match lookupUser st.store c.user_id with
        | none => (Sum.inl .internalError, st.store)
        | some user =>
          let store2 := updateUserBalance st.store c.user_id (user.balance + unspent)
          (Sum.inr { status := "ok", processed := st.results, refunded := unspent
                     total_spent := st.totalSpent
                     balance := finalBalance store2 (syncingUserIdOf req) }, store2)
      else
        (Sum.inr { status := "ok", processed := st.results, refunded := unspent
                   total_spent := st.totalSpent
                   balance := finalBalance st.store (syncingUserIdOf req) }, st.store)
    | none =>
      (Sum.inr { status := "ok", processed := st.results, refunded := 0
                 total_spent := st.totalSpent
                 balance := finalBalance st.store (syncingUserIdOf req) }, st.store)

/-- The replay loop of the change-certificate variant. -/
def p0Loop (cert? : Option Certificate) (store : Store) (txs : List TxRecord) : LoopState :=
  txs.foldl (p0Step cert?) { results := [], totalSpent := 0, store := store }

/-- Response assembly of the change-certificate variant (`part_000`): when
a certificate is present and `unspent = tip_wallet_balance - totalSpent`
is positive, mint and sign a new certificate for `unspent` (with fresh
`chTimestamp`, `chNonce`, `chExpiration` supplied by the environment);
no store write happens here. -/
def p0Respond (CM : CryptoModel) (req : SyncRequest) (st : LoopState)
    (chTimestamp chNonce chExpiration : String) : SyncOkP0 :=
  let balance := finalBalance st.store (syncingUserIdOf req)
  match req.certificate with
  | some c =>
    let unspent := c.tip_wallet_balance - st.totalSpent
    if unspent > 0 then
      let certData := joinBar [c.user_id, c.device_id, Int.repr unspent,
                               chTimestamp, chNonce, chExpiration]
      let nc : Certificate :=
        { user_id := c.user_id, device_id := c.device_id
          tip_wallet_balance := unspent
          timestamp := chTimestamp, nonce := chNonce, expiration := chExpiration
          signature := CM.sign certData }
      { status := "ok", processed := st.results, new_certificate := some nc
        total_spent := st.totalSpent, balance := balance }
    else
      { status := "ok", processed := st.results, new_certificate := none
        total_spent := st.totalSpent, balance := balance }
  | none =>
    { status := "ok", processed := st.results, new_certificate := none
      total_spent := st.totalSpent, balance := balance }

/-- `POST /sync` of `part_000` (the change-certificate variant): validate,
replay the batch with `p0Step`, settle change via `p0Respond` (which
performs no store write), and report the re-fetched balance of the
syncing user. -/
def syncP0 (CM : CryptoModel) (store : Store) (req : SyncRequest)
    (chTimestamp chNonce chExpiration : String) :
    (SyncErr ⊕ SyncOkP0) × Store :=
  match syncPrecheck CM req with
  | some e => (Sum.inl e, store)
  | none =>
    let st := p0Loop req.certificate store (req.transactions.getD [])
    (Sum.inr (p0Respond CM req st chTimestamp chNonce chExpiration), st.store)

/-- Error outcomes of `POST /certificate`. -/
inductive IssueErr where
  | userNotFound
  | insufficientBalance
deriving DecidableEq

/-- `POST /certificate`: load the user (404 if absent), reject when
`user.balance < amount`, else debit `amount` from the online balance and
return the signed certificate (with environment-supplied `ts`, `nonce`,
`exp`). -/
def issueCertificate (CM : CryptoModel) (store : Store)
    (user_id device_id : String) (amount : Int) (ts nonce exp : String) :
    (IssueErr ⊕ Certificate) × Store :=
  match lookupUser store user_id with
  | none => (Sum.inl .userNotFound, store)
  | some user =>
    if user.balance < amount then (Sum.inl .insufficientBalance, store)
    else
      let store2 := updateUserBalance store user_id (user.balance - amount)
      let dataToSign := joinBar [user.id, device_id, Int.repr amount, ts, nonce, exp]
      (Sum.inr { user_id := user.id, device_id := device_id, tip_wallet_balance := amount
                 timestamp := ts, nonce := nonce, expiration := exp
                 signature := CM.sign dataToSign }, store2)


/-! ### Concrete sample data, used to evaluate the claims on closed inputs -/

/-- A store holding exactly the user `alice` with online balance 0. -/
def wStoreAlice : Store :=
  { users := [{ id := "alice", balance := 0, public_key := "AK" }], transactions := [] }

/-- A validly signed certificate for `alice` on device `dev1` with
`tip_wallet_balance = 100`. -/
def wCert : Certificate :=
  { user_id := "alice", device_id := "dev1", tip_wallet_balance := 100
    timestamp := "ts", nonce := "n1", expiration := "exp"
    signature := demoCrypto.sign (joinBar ["alice", "dev1", Int.repr 100, "ts", "n1", "exp"]) }

/-- The same certificate with a corrupted signature. -/
def wCertBad : Certificate :=
  { user_id := "alice", device_id := "dev1", tip_wallet_balance := 100
    timestamp := "ts", nonce := "n1", expiration := "exp", signature := "BAD" }

/-- A signed offline transaction of amount 60 from `dev1` to `bob`. -/
def wTx60 : TxRecord :=
  { transaction_id := "t1", sender_user_id := none, sender_device_id := some "dev1"
    receiver_user_id := some "bob", receiver_device_id := none
    amount := 60, sender_signature := some "sig1" }

/-- A signed offline transaction of amount 5 with id `t1` (used where `t1`
is already stored). -/
def wTxDup : TxRecord :=
  { transaction_id := "t1", sender_user_id := some "carl", sender_device_id := none
    receiver_user_id := some "bob", receiver_device_id := none
    amount := 5, sender_signature := some "sig9" }

/-- A signed offline transaction with a negative amount, crediting `bob`. -/
def wTxNeg : TxRecord :=
  { transaction_id := "t9", sender_user_id := some "carl", sender_device_id := none
    receiver_user_id := some "bob", receiver_device_id := none
    amount := -5, sender_signature := some "sig2" }

/-- A transactions-table row whose id is `t1`. -/
def wRowT1 : TxRow :=
  { id := "t1", sender_id := some "carl", receiver_id := "bob", amount := 5
    signature := "s0", payload := wTxDup }

/-- A store in which transaction `t1` is already recorded and `bob` holds
balance 10. -/
def wStoreDup : Store :=
  { users := [{ id := "bob", balance := 10, public_key := "BK" }], transactions := [wRowT1] }

/-- The store after a first change-certificate sync of `wTx60` under
`wCert`, starting from `wStoreAlice`. -/
def wStoreRun1 : Store :=
  { users := [{ id := "alice", balance := 0, public_key := "AK" },
              { id := "bob", balance := 60, public_key := "PENDING_INITIALIZATION" }]
    transactions := [{ id := "t1", sender_id := some "alice", receiver_id := "bob"
                       amount := 60, signature := "sig1", payload := wTx60 }] }

/-- The change-certificate response of a sync of `wTx60` under `wCert`
when the fresh certificate parameters are `t`, `nn`, `ee`. -/
def wRespRun (t nn ee : String) : SyncOkP0 :=
  { status := "ok", processed := ["t1"]
    new_certificate := some { user_id := "alice", device_id := "dev1", tip_wallet_balance := 40
                              timestamp := t, nonce := nn, expiration := ee
                              signature := "SIG:alice|dev1|40|" ++ t ++ "|" ++ nn ++ "|" ++ ee }
    total_spent := 60, balance := 0 }

/-- The store after a first refund-variant sync of `wTx60` under `wCert`,
starting from `wStoreAlice` (40 refunded to alice). -/
def wStoreTR1 : Store :=
  { users := [{ id := "alice", balance := 40, public_key := "AK" },
              { id := "bob", balance := 60, public_key := "PENDING_INITIALIZATION" }]
    transactions := [{ id := "t1", sender_id := some "alice", receiver_id := "bob"
                       amount := 60, signature := "sig1", payload := wTx60 }] }

/-- The store after the second refund-variant sync of the same batch
(100 refunded to alice again). -/
def wStoreTR2 : Store :=
  { users := [{ id := "alice", balance := 140, public_key := "AK" },
              { id := "bob", balance := 60, public_key := "PENDING_INITIALIZATION" }]
    transactions := [{ id := "t1", sender_id := some "alice", receiver_id := "bob"
                       amount := 60, signature := "sig1", payload := wTx60 }] }

/-- Numeric value of a decimal digit character. -/
def digitVal (c : Char) : Nat := c.toNat - Char.toNat (Char.ofNat 48)

/-- Decode a decimal digit string (big-endian) back to a natural number. -/
def decodeDigits (l : List Char) : Nat :=
  l.foldl (fun a c => 10 * a + digitVal c) 0

/-- Exactly one of the seven certificate fields of `c` was changed to
obtain `c'`. -/
def oneFieldChange (c c' : Certificate) : Prop :=
  (c'.user_id ≠ c.user_id ∧ c'.device_id = c.device_id ∧
   c'.tip_wallet_balance = c.tip_wallet_balance ∧ c'.timestamp = c.timestamp ∧
   c'.nonce = c.nonce ∧ c'.expiration = c.expiration ∧ c'.signature = c.signature) ∨
  (c'.user_id = c.user_id ∧ c'.device_id ≠ c.device_id ∧
   c'.tip_wallet_balance = c.tip_wallet_balance ∧ c'.timestamp = c.timestamp ∧
   c'.nonce = c.nonce ∧ c'.expiration = c.expiration ∧ c'.signature = c.signature) ∨
  (c'.user_id = c.user_id ∧ c'.device_id = c.device_id ∧
   c'.tip_wallet_balance ≠ c.tip_wallet_balance ∧ c'.timestamp = c.timestamp ∧
   c'.nonce = c.nonce ∧ c'.expiration = c.expiration ∧ c'.signature = c.signature) ∨
  (c'.user_id = c.user_id ∧ c'.device_id = c.device_id ∧
   c'.tip_wallet_balance = c.tip_wallet_balance ∧ c'.timestamp ≠ c.timestamp ∧
   c'.nonce = c.nonce ∧ c'.expiration = c.expiration ∧ c'.signature = c.signature) ∨
  (c'.user_id = c.user_id ∧ c'.device_id = c.device_id ∧
   c'.tip_wallet_balance = c.tip_wallet_balance ∧ c'.timestamp = c.timestamp ∧
   c'.nonce ≠ c.nonce ∧ c'.expiration = c.expiration ∧ c'.signature = c.signature) ∨
  (c'.user_id = c.user_id ∧ c'.device_id = c.device_id ∧
   c'.tip_wallet_balance = c.tip_wallet_balance ∧ c'.timestamp = c.timestamp ∧
   c'.nonce = c.nonce ∧ c'.expiration ≠ c.expiration ∧ c'.signature = c.signature) ∨
  (c'.user_id = c.user_id ∧ c'.device_id = c.device_id ∧
   c'.tip_wallet_balance = c.tip_wallet_balance ∧ c'.timestamp = c.timestamp ∧
   c'.nonce = c.nonce ∧ c'.expiration = c.expiration ∧ c'.signature ≠ c.signature)

/-- A certificate issued to `bob` on device `dev9` for amount 7. -/
def wCertIssued : Certificate :=
  { user_id := "bob", device_id := "dev9", tip_wallet_balance := 7
    timestamp := "T", nonce := "N", expiration := "E"
    signature := demoCrypto.sign (joinBar ["bob", "dev9", Int.repr 7, "T", "N", "E"]) }

/-- `wCertIssued` with only its `tip_wallet_balance` changed. -/
def wCertMut : Certificate :=
  { user_id := "bob", device_id := "dev9", tip_wallet_balance := 8
    timestamp := "T", nonce := "N", expiration := "E"
    signature := demoCrypto.sign (joinBar ["bob", "dev9", Int.repr 7, "T", "N", "E"]) }

/-! ### Replay-loop lemmas -/

lemma p0Step_totalSpent (cert? : Option Certificate) (st : LoopState) (tx : TxRecord) :
    (p0Step cert? st tx).totalSpent = st.totalSpent + tx.amount := by
  unfold p0Step
  dsimp only
  split <;> first | rfl | (split <;> rfl)

lemma p0Step_results (cert? : Option Certificate) (st : LoopState) (tx : TxRecord) :
    (p0Step cert? st tx).results = st.results ++ [tx.transaction_id] := by
  unfold p0Step
  dsimp only
  split <;> first | rfl | (split <;> rfl)

lemma p0_foldl_totalSpent (cert? : Option Certificate) (txs : List TxRecord) (st : LoopState) :
    (txs.foldl (p0Step cert?) st).totalSpent = st.totalSpent + (txs.map TxRecord.amount).sum := by
  induction txs generalizing st with
  | nil => simp
  | cons tx rest ih =>
    simp only [List.foldl_cons, List.map_cons, List.sum_cons]
    rw [ih, p0Step_totalSpent]
    ring

lemma p0_foldl_results (cert? : Option Certificate) (txs : List TxRecord) (st : LoopState) :
    (txs.foldl (p0Step cert?) st).results = st.results ++ txs.map TxRecord.transaction_id := by
  induction txs generalizing st with
  | nil => simp
  | cons tx rest ih =>
    simp only [List.foldl_cons, List.map_cons]
    rw [ih, p0Step_results]
    simp

/-- Shape of a successful change-certificate-variant sync: the returned
store is the replay loop's store, and the response is assembled by
`p0Respond` from the loop state. -/
lemma syncP0_eq (CM : CryptoModel) (store : Store) (req : SyncRequest)
    (txs : List TxRecord) (ts n e : String)
    (ht : req.transactions = some txs) (hp : syncPrecheck CM req = none) :
    syncP0 CM store req ts n e =
      (Sum.inr (p0Respond CM req (p0Loop req.certificate store txs) ts n e),
       (p0Loop req.certificate store txs).store) := by
  unfold syncP0
  rw [hp, ht]
  rfl

/-- Components of the response assembled by `p0Respond`. -/
lemma p0Respond_components (CM : CryptoModel) (req : SyncRequest) (st : LoopState)
    (ts n e : String) :
    (p0Respond CM req st ts n e).status = "ok" ∧
    (p0Respond CM req st ts n e).processed = st.results ∧
    (p0Respond CM req st ts n e).total_spent = st.totalSpent ∧
    (p0Respond CM req st ts n e).balance = finalBalance st.store (syncingUserIdOf req) := by
  unfold p0Respond
  cases req.certificate with
  | none => exact ⟨rfl, rfl, rfl, rfl⟩
  | some c =>
    dsimp only
    split <;> exact ⟨rfl, rfl, rfl, rfl⟩

/-- C3 (amended): for a transaction whose `transaction_id` is already
stored, neither sync variant inserts a row or credits a receiver; the
change-certificate variant (`part_000`) still counts the amount toward
`totalSpent` and appends the id to the processed list, while the refund
variant (`transactionRoutes.ts`) skips the transaction entirely — the id
does not appear in its processed list and the amount is not counted. -/
theorem duplicateTx_step (cert? : Option Certificate) (st : LoopState) (tx : TxRecord)
    (row : TxRow) (h : lookupTx st.store tx.transaction_id = some row) :
    p0Step cert? st tx =
      { results := st.results ++ [tx.transaction_id]
        totalSpent := st.totalSpent + tx.amount
        store := st.store } ∧
    trStep cert? st tx = st := by
  constructor
  · unfold p0Step
    dsimp only
    rw [h]
  · unfold trStep
    rw [h]

theorem duplicateTx_step_witness :
    lookupTx wStoreDup "t1" = some wRowT1 ∧
    (p0Step none { results := [], totalSpent := 0, store := wStoreDup } wTxDup =
      { results := [] ++ ["t1"], totalSpent := 0 + 5, store := wStoreDup } ∧
     trStep none { results := [], totalSpent := 0, store := wStoreDup } wTxDup =
      { results := [], totalSpent := 0, store := wStoreDup }) :=
  ⟨by decide, duplicateTx_step none _ wTxDup wRowT1 (by decide)⟩

/-- C3 counterexample: syncing a batch that replays the already-stored
transaction `t1` (amount 5) through the change-certificate variant still
counts the 5 toward `total_spent` (the response reports `total_spent = 5`
with the store unchanged), refuting the claim that an already-stored
transaction's amount is not re-counted toward `totalSpent`. -/
theorem duplicateTx_recounted_cx :
    (syncP0 demoCrypto wStoreDup
        { certificate := none, transactions := some [wTxDup], user_id := some "bob" }
        "T" "N" "E") =
      (Sum.inr { status := "ok", processed := ["t1"], new_certificate := none
                 total_spent := 5, balance := 10 }, wStoreDup) := by decide

/-- C4 (amended): in the change-certificate variant (`part_000`) the
returned `total_spent` equals the sum of the amounts of every transaction
in the submitted batch, previously-stored duplicates included; the refund
variant (`transactionRoutes.ts`) instead excludes previously-stored
duplicates (and unsigned transactions) from `total_spent`, see the
counterexample. -/
theorem syncP0_total_spent (CM : CryptoModel) (store : Store) (req : SyncRequest)
    (txs : List TxRecord) (ts n e : String) (r : SyncOkP0)
    (ht : req.transactions = some txs)
    (hr : (syncP0 CM store req ts n e).1 = Sum.inr r) :
    r.total_spent = (txs.map TxRecord.amount).sum := by
  cases hp : syncPrecheck CM req with
  | some err =>
    unfold syncP0 at hr
    rw [hp] at hr
    simp at hr
  | none =>
    rw [syncP0_eq CM store req txs ts n e ht hp] at hr
    simp only [Sum.inr.injEq] at hr
    rw [← hr]
    rw [(p0Respond_components CM req (p0Loop req.certificate store txs) ts n e).2.2.1]
    unfold p0Loop
    rw [p0_foldl_totalSpent]
    simp

theorem syncP0_total_spent_witness :
    (syncP0 demoCrypto wStoreDup
        { certificate := none, transactions := some [wTxDup], user_id := some "bob" }
        "T" "N" "E").1 =
      Sum.inr { status := "ok", processed := ["t1"], new_certificate := none
                total_spent := 5, balance := 10 } ∧
    ({ status := "ok", processed := ["t1"], new_certificate := none
       total_spent := 5, balance := 10 } : SyncOkP0).total_spent =
      ([wTxDup].map TxRecord.amount).sum :=
  ⟨by decide,
   syncP0_total_spent demoCrypto wStoreDup
     { certificate := none, transactions := some [wTxDup], user_id := some "bob" }
     [wTxDup] "T" "N" "E"
     { status := "ok", processed := ["t1"], new_certificate := none
       total_spent := 5, balance := 10 } rfl (by decide)⟩

/-- C4 counterexample: in the refund variant, syncing a batch containing
the previously-stored transaction `t1` (amount 5) returns
`total_spent = 0` — previously-processed duplicates are not included —
refuting the claim for this sync implementation. -/
theorem syncTR_total_spent_cx :
    (syncTR demoCrypto wStoreDup
        { certificate := none, transactions := some [wTxDup], user_id := some "bob" }) =
      (Sum.inr { status := "ok", processed := [], refunded := 0
                 total_spent := 0, balance := 10 }, wStoreDup) := by decide

/-- C7: the `sender_id` persisted in the transaction row follows the
exact precedence of both sync variants — the transaction's
`sender_user_id` if present (JS-truthy), otherwise the certificate's
`user_id` when a certificate is present whose `device_id` equals the
transaction's `sender_device_id`, otherwise the transaction's
`sender_device_id` — assuming the certificate carries a non-empty
`user_id`. -/
theorem rowOf_sender_precedence (cert? : Option Certificate) (tx : TxRecord)
    (hcu : ∀ c, cert? = some c → c.user_id.isEmpty = false) :
    (rowOf cert? tx).sender_id =
      if truthyOptStr tx.sender_user_id then tx.sender_user_id
      else
        match cert? with
        | some c =>
          if tx.sender_device_id = some c.device_id then some c.user_id
          else tx.sender_device_id
        | none => tx.sender_device_id := by
  unfold rowOf resolveSenderId
  dsimp only
  by_cases h1 : truthyOptStr tx.sender_user_id
  · simp [h1]
  · rw [Bool.not_eq_true] at h1
    cases cert? with
    | none => simp [h1]
    | some c =>
      have hu := hcu c rfl
      cases hd : tx.sender_device_id with
      | none => simp [h1, hd]
      | some d =>
        by_cases he : c.device_id = d
        · subst he
          have ht : truthyOptStr (some c.user_id) = true := by
            simp [truthyOptStr, hu]
          simp [h1, hd, ht]
        · have he2 : ¬ (some d = some c.device_id) := by
            simp
            exact fun h => he h.symm
          simp [h1, hd, he, he2]

theorem rowOf_sender_precedence_witness :
    wCert.user_id.isEmpty = false ∧
    (rowOf (some wCert) wTx60).sender_id = some "alice" :=
  ⟨by decide, by
    rw [rowOf_sender_precedence (some wCert) wTx60 (fun c hc => by cases hc; decide)]
    decide⟩

/-- C8: a sync call presenting a certificate whose signature does not
verify returns the invalid-certificate outcome (the 401 path) in both
variants, with the store returned unchanged: no transaction row is
inserted and no user balance is modified. -/
theorem sync_invalid_certificate (CM : CryptoModel) (store : Store) (req : SyncRequest)
    (c : Certificate) (txs : List TxRecord) (ts n e : String)
    (ht : req.transactions = some txs)
    (hc : req.certificate = some c)
    (hv : verifyCert CM c = false) :
    syncTR CM store req = (Sum.inl SyncErr.invalidCertificate, store) ∧
    syncP0 CM store req ts n e = (Sum.inl SyncErr.invalidCertificate, store) := by
  have hp : syncPrecheck CM req = some .invalidCertificate := by
    unfold syncPrecheck
    rw [ht]
    simp [hc, hv]
  constructor
  · unfold syncTR
    rw [hp]
  · unfold syncP0
    rw [hp]

theorem sync_invalid_certificate_witness :
    verifyCert demoCrypto wCertBad = false ∧
    (syncTR demoCrypto wStoreAlice
        { certificate := some wCertBad, transactions := some [wTx60], user_id := none } =
       (Sum.inl SyncErr.invalidCertificate, wStoreAlice) ∧
     syncP0 demoCrypto wStoreAlice
        { certificate := some wCertBad, transactions := some [wTx60], user_id := none }
        "T" "N" "E" =
       (Sum.inl SyncErr.invalidCertificate, wStoreAlice)) :=
  ⟨by decide,
   sync_invalid_certificate demoCrypto wStoreAlice
     { certificate := some wCertBad, transactions := some [wTx60], user_id := none }
     wCertBad [wTx60] "T" "N" "E" rfl rfl (by decide)⟩

/-- C9 (amended): for every successful sync call in either variant, the
response's balance field is the syncing user's balance looked up in the
returned post-write store (0 when that user has no row); the final fetch
performs no store write, so a never-seen syncing user is NOT
auto-provisioned (see the counterexample). -/
theorem sync_balance_refetch (CM : CryptoModel) (store : Store) (req : SyncRequest)
    (ts n e : String) :
    (∀ r s2, syncTR CM store req = (Sum.inr r, s2) →
        r.balance = finalBalance s2 (syncingUserIdOf req)) ∧
    (∀ r s2, syncP0 CM store req ts n e = (Sum.inr r, s2) →
        r.balance = finalBalance s2 (syncingUserIdOf req)) := by
  constructor
  · intro r s2 h
    unfold syncTR at h
    split at h
    · exact absurd h (by simp)
    · dsimp only at h
      split at h
      · split at h
        · split at h
          · exact absurd h (by simp)
          · simp only [Prod.mk.injEq, Sum.inr.injEq] at h
            obtain ⟨hr, hs⟩ := h
            subst hs
            rw [← hr]
        · simp only [Prod.mk.injEq, Sum.inr.injEq] at h
          obtain ⟨hr, hs⟩ := h
          subst hs
          rw [← hr]
      · simp only [Prod.mk.injEq, Sum.inr.injEq] at h
        obtain ⟨hr, hs⟩ := h
        subst hs
        rw [← hr]
  · intro r s2 h
    unfold syncP0 at h
    split at h
    · exact absurd h (by simp)
    · simp only [Prod.mk.injEq, Sum.inr.injEq] at h
      obtain ⟨hr, hs⟩ := h
      subst hs
      rw [← hr]
      exact (p0Respond_components CM req _ ts n e).2.2.2

theorem sync_balance_refetch_witness :
    ({ status := "ok", processed := ["t1"], new_certificate := none
       total_spent := 5, balance := 10 } : SyncOkP0).balance =
      finalBalance wStoreDup
        (syncingUserIdOf { certificate := none, transactions := some [wTxDup], user_id := some "bob" }) :=
  (sync_balance_refetch demoCrypto wStoreDup
      { certificate := none, transactions := some [wTxDup], user_id := some "bob" }
      "T" "N" "E").2
    { status := "ok", processed := ["t1"], new_certificate := none
      total_spent := 5, balance := 10 }
    wStoreDup (by decide)

/-- C9 counterexample: a successful sync for the never-seen user `u`
(no certificate, empty batch) reports balance 0 but does not provision
`u` in the store — the returned store is unchanged and still has no row
for `u` — refuting the auto-provisioning part of the claim in both
variants. -/
theorem sync_no_autoprovision_cx :
    (syncP0 demoCrypto { users := [], transactions := [] }
        { certificate := none, transactions := some [], user_id := some "u" } "T" "N" "E" =
      (Sum.inr { status := "ok", processed := [], new_certificate := none
                 total_spent := 0, balance := 0 }, { users := [], transactions := [] }) ∧
     syncTR demoCrypto { users := [], transactions := [] }
        { certificate := none, transactions := some [], user_id := some "u" } =
      (Sum.inr { status := "ok", processed := [], refunded := 0
                 total_spent := 0, balance := 0 }, { users := [], transactions := [] })) ∧
    lookupUser { users := [], transactions := [] } "u" = none := by decide

/-- A certificate whose signature field is the server's signature of its
own canonical string verifies. -/
lemma verifyCert_of_signed (CM : CryptoModel) (c : Certificate)
    (h : c.signature = CM.sign (certCanonical c)) : verifyCert CM c = true := by
  unfold verifyCert
  rw [CM.verify_eq, h]
  simp

/-- The change certificate minted by `p0Respond` when the unspent
remainder is positive. -/
lemma p0Respond_newCert_pos (CM : CryptoModel) (req : SyncRequest) (st : LoopState)
    (ts n e : String) (c : Certificate)
    (hc : req.certificate = some c)
    (hpos : c.tip_wallet_balance - st.totalSpent > 0) :
    (p0Respond CM req st ts n e).new_certificate = some
      { user_id := c.user_id, device_id := c.device_id
        tip_wallet_balance := c.tip_wallet_balance - st.totalSpent
        timestamp := ts, nonce := n, expiration := e
        signature := CM.sign (joinBar [c.user_id, c.device_id,
          Int.repr (c.tip_wallet_balance - st.totalSpent), ts, n, e]) } := by
  unfold p0Respond
  rw [hc]
  dsimp only
  rw [if_pos hpos]

/-- `p0Respond` mints no certificate when the unspent remainder is not
positive. -/
lemma p0Respond_newCert_nonpos (CM : CryptoModel) (req : SyncRequest) (st : LoopState)
    (ts n e : String) (c : Certificate)
    (hc : req.certificate = some c)
    (hnp : ¬ c.tip_wallet_balance - st.totalSpent > 0) :
    (p0Respond CM req st ts n e).new_certificate = none := by
  unfold p0Respond
  rw [hc]
  dsimp only
  rw [if_neg hnp]

/-- C2: for a sync through the change-certificate variant presenting a
valid certificate with `tip_wallet_balance = B` and a batch whose counted
amounts sum to `S`: when `0 < S < B`, the response carries a new
certificate whose `tip_wallet_balance = B - S` and which verifies against
the server's public key; when `S ≥ B`, the response's `new_certificate`
is null. -/
theorem syncP0_change_certificate (CM : CryptoModel) (store : Store) (cert : Certificate)
    (txs : List TxRecord) (uid? : Option String) (ts n e : String)
    (hv : verifyCert CM cert = true) :
    (0 < (txs.map TxRecord.amount).sum →
      (txs.map TxRecord.amount).sum < cert.tip_wallet_balance →
      ∃ r nc, (syncP0 CM store
          { certificate := some cert, transactions := some txs, user_id := uid? }
          ts n e).1 = Sum.inr r ∧
        r.new_certificate = some nc ∧
        nc.tip_wallet_balance = cert.tip_wallet_balance - (txs.map TxRecord.amount).sum ∧
        verifyCert CM nc = true) ∧
    (cert.tip_wallet_balance ≤ (txs.map TxRecord.amount).sum →
      ∃ r, (syncP0 CM store
          { certificate := some cert, transactions := some txs, user_id := uid? }
          ts n e).1 = Sum.inr r ∧ r.new_certificate = none) := by
  have hp : syncPrecheck CM
      { certificate := some cert, transactions := some txs, user_id := uid? } = none := by
    unfold syncPrecheck
    simp [hv]
  have heq := syncP0_eq CM store
    { certificate := some cert, transactions := some txs, user_id := uid? } txs ts n e rfl hp
  have hts : (p0Loop (some cert) store txs).totalSpent = (txs.map TxRecord.amount).sum := by
    unfold p0Loop
    rw [p0_foldl_totalSpent]
    simp
  constructor
  · intro h0 hlt
    have hpos : cert.tip_wallet_balance - (p0Loop (some cert) store txs).totalSpent > 0 := by
      rw [hts]; omega
    have hnc := p0Respond_newCert_pos CM
      { certificate := some cert, transactions := some txs, user_id := uid? }
      (p0Loop (some cert) store txs) ts n e cert rfl hpos
    refine ⟨_, _, by rw [heq], hnc, ?_, ?_⟩
    · dsimp only
      rw [hts]
    · exact verifyCert_of_signed CM _ rfl
  · intro hge
    have hnp : ¬ cert.tip_wallet_balance - (p0Loop (some cert) store txs).totalSpent > 0 := by
      rw [hts]; omega
    exact ⟨p0Respond CM _ (p0Loop (some cert) store txs) ts n e, by rw [heq],
      p0Respond_newCert_nonpos CM _ _ ts n e cert rfl hnp⟩

theorem syncP0_change_certificate_witness :
    verifyCert demoCrypto wCert = true ∧
    0 < ([wTx60].map TxRecord.amount).sum ∧
    ([wTx60].map TxRecord.amount).sum < wCert.tip_wallet_balance ∧
    (∃ r nc, (syncP0 demoCrypto wStoreAlice
        { certificate := some wCert, transactions := some [wTx60], user_id := none }
        "T2" "N2" "E2").1 = Sum.inr r ∧
      r.new_certificate = some nc ∧
      nc.tip_wallet_balance = wCert.tip_wallet_balance - ([wTx60].map TxRecord.amount).sum ∧
      verifyCert demoCrypto nc = true) :=
  ⟨by decide, by decide, by decide,
   (syncP0_change_certificate demoCrypto wStoreAlice wCert [wTx60] none "T2" "N2" "E2"
      (by decide)).1 (by decide) (by decide)⟩

/-- C1 (amended): in the change-certificate variant, change settlement
performs no store write — the store returned by a successful sync is
exactly the replay loop's store, so every `User.balance` (in particular
the certificate holder's) after sync equals its value before change
settlement, and the unspent amount lives only in the new certificate.
The refund variant (`transactionRoutes.ts`) instead credits the positive
unspent remainder to the certificate holder's `User.balance` (second
conjunct; concrete instance in the counterexample). -/
theorem sync_settlement_balances (CM : CryptoModel) (store : Store) (req : SyncRequest)
    (txs : List TxRecord) (ts n e : String)
    (ht : req.transactions = some txs) (hp : syncPrecheck CM req = none) :
    ((syncP0 CM store req ts n e).2 = (p0Loop req.certificate store txs).store ∧
     lookupUser (syncP0 CM store req ts n e).2 (syncingUserIdOf req) =
       lookupUser (p0Loop req.certificate store txs).store (syncingUserIdOf req)) ∧
    (∀ c user,
      req.certificate = some c →
      c.tip_wallet_balance - (trLoop req.certificate store txs).totalSpent > 0 →
      lookupUser (trLoop req.certificate store txs).store c.user_id = some user →
      (syncTR CM store req).2 =
        updateUserBalance (trLoop req.certificate store txs).store c.user_id
          (user.balance + (c.tip_wallet_balance - (trLoop req.certificate store txs).totalSpent))) := by
  constructor
  · have heq := syncP0_eq CM store req txs ts n e ht hp
    rw [heq]
    exact ⟨rfl, rfl⟩
  · intro c user hc hpos huser
    unfold syncTR
    rw [hp, ht]
    dsimp only
    rw [hc] at hpos huser ⊢
    dsimp only
    simp only [Option.getD_some]
    rw [if_pos hpos, huser]

theorem sync_settlement_balances_witness :
    (syncP0 demoCrypto wStoreAlice
        { certificate := some wCert, transactions := some [], user_id := none }
        "T2" "N2" "E2").2 =
      (p0Loop (some wCert) wStoreAlice []).store ∧
    (syncTR demoCrypto wStoreAlice
        { certificate := some wCert, transactions := some [], user_id := none }).2 =
      updateUserBalance (trLoop (some wCert) wStoreAlice []).store wCert.user_id
        (({ id := "alice", balance := 0, public_key := "AK" } : User).balance +
          (wCert.tip_wallet_balance - (trLoop (some wCert) wStoreAlice []).totalSpent)) := by
  have h := sync_settlement_balances demoCrypto wStoreAlice
    { certificate := some wCert, transactions := some [], user_id := none } []
    "T2" "N2" "E2" rfl (by decide)
  exact ⟨h.1.1,
    h.2 wCert { id := "alice", balance := 0, public_key := "AK" } rfl (by decide) (by decide)⟩

/-- C1 counterexample: in the refund variant, a sync presenting the valid
certificate for `alice` (`tip_wallet_balance = 100`) with an empty batch
leaves `unspent = 100 > 0` and credits it back to `alice`'s
`User.balance` (0 before the call, 100 after), refuting the claim that
the unspent remainder is never credited back to the online balance. -/
theorem syncTR_refund_credits_cx :
    syncTR demoCrypto wStoreAlice
        { certificate := some wCert, transactions := some [], user_id := none } =
      (Sum.inr { status := "ok", processed := [], refunded := 100
                 total_spent := 0, balance := 100 },
       { users := [{ id := "alice", balance := 100, public_key := "AK" }], transactions := [] }) ∧
    lookupUser wStoreAlice "alice" =
      some { id := "alice", balance := 0, public_key := "AK" } := by decide

/-! ### Balance monotonicity -/

/-- Store order: every user row visible by lookup before is still visible
afterwards with at least its old balance. -/
def storeLE (s s' : Store) : Prop :=
  ∀ uid u, lookupUser s uid = some u →
    ∃ u', lookupUser s' uid = some u' ∧ u.balance ≤ u'.balance

lemma storeLE_refl (s : Store) : storeLE s s :=
  fun _ u h => ⟨u, h, le_refl _⟩

lemma storeLE_trans {a b c : Store} (h1 : storeLE a b) (h2 : storeLE b c) : storeLE a c := by
  intro uid u hu
  obtain ⟨v, hv, hb⟩ := h1 uid u hu
  obtain ⟨w, hw, hb2⟩ := h2 uid v hv
  exact ⟨w, hw, le_trans hb hb2⟩

lemma lookupUser_updateUserBalance (s : Store) (rid : String) (b : Int) (uid : String) :
    lookupUser (updateUserBalance s rid b) uid =
      (lookupUser s uid).map (fun u => if u.id == rid then { u with balance := b } else u) := by
  unfold lookupUser updateUserBalance
  dsimp only
  rw [List.find?_map]
  have hpred : ((fun u : User => u.id == uid) ∘
      fun u : User => if u.id == rid then { u with balance := b } else u) =
      (fun u : User => u.id == uid) := by
    funext u
    by_cases h : u.id == rid <;> simp [Function.comp, h]
  rw [hpred]

lemma find?_append_some {α : Type} (p : α → Bool) (l₁ l₂ : List α) (a : α)
    (h : l₁.find? p = some a) : (l₁ ++ l₂).find? p = some a := by
  induction l₁ with
  | nil => simp at h
  | cons x xs ih =>
    rw [List.cons_append]
    cases hpx : p x with
    | true =>
      rw [List.find?_cons_of_pos _ hpx] at h ⊢
      exact h
    | false =>
      have hneg : ¬ p x = true := by simp [hpx]
      rw [List.find?_cons_of_neg _ hneg] at h ⊢
      exact ih h

lemma storeLE_updateUserBalance_add (s : Store) (rid : String) (v : User) (a : Int)
    (hl : lookupUser s rid = some v) (ha : 0 ≤ a) :
    storeLE s (updateUserBalance s rid (v.balance + a)) := by
  intro uid u hu
  rw [lookupUser_updateUserBalance, hu]
  simp only [Option.map_some']
  by_cases h : u.id == rid
  · have e1 : u.id = uid := by simpa using List.find?_some hu
    have e2 : u.id = rid := by simpa using h
    have e3 : rid = uid := e2 ▸ e1
    rw [e3, hu] at hl
    have hvu : u = v := by injection hl
    subst hvu
    refine ⟨_, rfl, ?_⟩
    simp [h]
    omega
  · refine ⟨_, rfl, ?_⟩
    simp [h]

lemma storeLE_creditReceiver (s : Store) (rid : String) (a : Int) (ha : 0 ≤ a) :
    storeLE s (creditReceiver s rid a) := by
  unfold creditReceiver
  split
  · cases hl : lookupUser s rid with
    | some receiver => exact storeLE_updateUserBalance_add s rid receiver a hl ha
    | none =>
      intro uid u hu
      refine ⟨u, ?_, le_refl _⟩
      unfold lookupUser insertUser
      dsimp only
      exact find?_append_some _ _ _ _ hu
  · exact storeLE_refl s

lemma storeLE_trStep (cert? : Option Certificate) (st : LoopState) (tx : TxRecord)
    (ha : 0 ≤ tx.amount) : storeLE st.store (trStep cert? st tx).store := by
  unfold trStep
  split
  · exact storeLE_refl _
  · split
    · exact storeLE_refl _
    · dsimp only
      exact storeLE_trans (fun uid u h => ⟨u, h, le_refl _⟩)
        (storeLE_creditReceiver (insertTx st.store (rowOf cert? tx)) (receiverIdOf tx) tx.amount ha)

lemma storeLE_p0Step (cert? : Option Certificate) (st : LoopState) (tx : TxRecord)
    (ha : 0 ≤ tx.amount) : storeLE st.store (p0Step cert? st tx).store := by
  unfold p0Step
  dsimp only
  split
  · exact storeLE_refl _
  · split
    · exact storeLE_refl _
    · dsimp only
      exact storeLE_trans (fun uid u h => ⟨u, h, le_refl _⟩)
        (storeLE_creditReceiver (insertTx st.store (rowOf cert? tx)) (receiverIdOf tx) tx.amount ha)

lemma storeLE_foldl (step : LoopState → TxRecord → LoopState)
    (hstep : ∀ st tx, 0 ≤ tx.amount → storeLE st.store (step st tx).store)
    (txs : List TxRecord) (st : LoopState)
    (ha : ∀ tx ∈ txs, 0 ≤ tx.amount) :
    storeLE st.store (txs.foldl step st).store := by
  induction txs generalizing st with
  | nil => exact storeLE_refl _
  | cons tx rest ih =>
    rw [List.foldl_cons]
    exact storeLE_trans (hstep st tx (ha tx (by simp)))
      (ih (step st tx) (fun t htm => ha t (by simp [htm])))

/-- C10 (amended): provided every transaction amount in the batch is
non-negative, a sync call never decreases any stored user balance, in
either variant: every balance write credits a receiver by its amount,
provisions a new user, or (refund variant) credits the positive unspent
remainder to the certificate holder.  The code does not validate amounts,
so for a negative client-supplied amount a balance CAN decrease — see the
counterexample. -/
theorem sync_balances_monotone (CM : CryptoModel) (store : Store) (req : SyncRequest)
    (txs : List TxRecord) (ts n e : String)
    (ht : req.transactions = some txs)
    (ha : ∀ tx ∈ txs, 0 ≤ tx.amount) :
    storeLE store (syncTR CM store req).2 ∧
    storeLE store (syncP0 CM store req ts n e).2 := by
  constructor
  · unfold syncTR
    cases hp : syncPrecheck CM req with
    | some err => exact storeLE_refl _
    | none =>
      rw [ht]
      dsimp only
      simp only [Option.getD_some]
      have hloop : storeLE store (trLoop req.certificate store txs).store := by
        unfold trLoop
        exact storeLE_foldl (trStep req.certificate)
          (fun st tx haa => storeLE_trStep req.certificate st tx haa) txs
          { results := [], totalSpent := 0, store := store } ha
      cases hc : req.certificate with
      | none =>
        rw [hc] at hloop
        exact hloop
      | some c =>
        rw [hc] at hloop
        dsimp only
        by_cases hu : c.tip_wallet_balance - (trLoop (some c) store txs).totalSpent > 0
        · rw [if_pos hu]
          cases hl : lookupUser (trLoop (some c) store txs).store c.user_id with
          | none => exact hloop
          | some user =>
            exact storeLE_trans hloop
              (storeLE_updateUserBalance_add _ c.user_id user _ hl (by omega))
        · rw [if_neg hu]
          exact hloop
  · unfold syncP0
    cases hp : syncPrecheck CM req with
    | some err => exact storeLE_refl _
    | none =>
      rw [ht]
      dsimp only
      simp only [Option.getD_some]
      unfold p0Loop
      exact storeLE_foldl (p0Step req.certificate)
        (fun st tx haa => storeLE_p0Step req.certificate st tx haa) txs
        { results := [], totalSpent := 0, store := store } ha

theorem sync_balances_monotone_witness :
    storeLE wStoreAlice (syncTR demoCrypto wStoreAlice
      { certificate := some wCert, transactions := some [wTx60], user_id := none }).2 ∧
    storeLE wStoreAlice (syncP0 demoCrypto wStoreAlice
      { certificate := some wCert, transactions := some [wTx60], user_id := none }
      "T" "N" "E").2 :=
  sync_balances_monotone demoCrypto wStoreAlice
    { certificate := some wCert, transactions := some [wTx60], user_id := none }
    [wTx60] "T" "N" "E" rfl (by decide)

/-- C10 counterexample: nothing validates transaction amounts, so a
client-supplied negative amount debits the receiver during sync: `bob`
holds 10 before and 5 after replaying a signed transaction of amount -5,
refuting the claim that no user's balance ever decreases. -/
theorem sync_balance_decrease_cx :
    lookupUser wStoreDup "bob" = some { id := "bob", balance := 10, public_key := "BK" } ∧
    lookupUser (syncP0 demoCrypto wStoreDup
        { certificate := none, transactions := some [wTxNeg], user_id := some "bob" }
        "T" "N" "E").2 "bob" =
      some { id := "bob", balance := 5, public_key := "BK" } := by decide

/-! ### Idempotent replay (change-certificate variant) -/

lemma find?_append_right {α : Type} (p : α → Bool) (l₁ l₂ : List α)
    (h : l₁.find? p = none) : (l₁ ++ l₂).find? p = l₂.find? p := by
  induction l₁ with
  | nil => rfl
  | cons x xs ih =>
    rw [List.cons_append]
    cases hpx : p x with
    | true =>
      rw [List.find?_cons_of_pos _ hpx] at h
      exact absurd h (by simp)
    | false =>
      have hneg : ¬ p x = true := by simp [hpx]
      rw [List.find?_cons_of_neg _ hneg] at h ⊢
      exact ih h

lemma lookupTx_creditReceiver (s : Store) (rid : String) (a : Int) (tid : String) :
    lookupTx (creditReceiver s rid a) tid = lookupTx s tid := by
  unfold creditReceiver
  split
  · cases lookupUser s rid <;> rfl
  · rfl

lemma lookupTx_insertTx_some (s : Store) (r : TxRow) (tid : String) (row : TxRow)
    (h : lookupTx s tid = some row) : lookupTx (insertTx s r) tid = some row := by
  unfold lookupTx at h ⊢
  unfold insertTx
  dsimp only
  exact find?_append_some _ _ _ _ h

lemma lookupTx_p0Step_mono (cert? : Option Certificate) (st : LoopState) (tx : TxRecord)
    (tid : String) (row : TxRow) (h : lookupTx st.store tid = some row) :
    lookupTx (p0Step cert? st tx).store tid = some row := by
  unfold p0Step
  dsimp only
  split
  · exact h
  · split
    · exact h
    · dsimp only
      rw [lookupTx_creditReceiver]
      exact lookupTx_insertTx_some _ _ _ _ h

lemma lookupTx_p0_foldl_mono (cert? : Option Certificate) (txs : List TxRecord)
    (st : LoopState) (tid : String) (row : TxRow)
    (h : lookupTx st.store tid = some row) :
    lookupTx ((txs.foldl (p0Step cert?) st).store) tid = some row := by
  induction txs generalizing st with
  | nil => exact h
  | cons t rest ih =>
    rw [List.foldl_cons]
    exact ih _ (lookupTx_p0Step_mono cert? st t tid row h)

lemma lookupTx_p0Step_self (cert? : Option Certificate) (st : LoopState) (tx : TxRecord)
    (hsig : truthyOptStr tx.sender_signature = true) :
    ∃ row, lookupTx (p0Step cert? st tx).store tx.transaction_id = some row := by
  unfold p0Step
  dsimp only
  cases hl : lookupTx st.store tx.transaction_id with
  | some row => exact ⟨row, hl⟩
  | none =>
    simp only [hsig, Bool.not_true, Bool.false_eq_true, if_false]
    rw [lookupTx_creditReceiver]
    refine ⟨rowOf cert? tx, ?_⟩
    unfold lookupTx at hl ⊢
    unfold insertTx
    dsimp only
    rw [find?_append_right _ _ _ hl]
    rw [List.find?_cons_of_pos]
    simp [rowOf]

lemma p0_foldl_covers (cert? : Option Certificate) (txs : List TxRecord) (st : LoopState) :
    ∀ tx ∈ txs, truthyOptStr tx.sender_signature = true →
      ∃ row, lookupTx ((txs.foldl (p0Step cert?) st).store) tx.transaction_id = some row := by
  induction txs generalizing st with
  | nil =>
    intro tx h
    simp at h
  | cons t rest ih =>
    intro tx htx hsig
    rw [List.foldl_cons]
    rcases List.mem_cons.mp htx with heq | hmem
    · subst heq
      obtain ⟨row, hrow⟩ := lookupTx_p0Step_self cert? st tx hsig
      exact ⟨row, lookupTx_p0_foldl_mono cert? rest _ _ row hrow⟩
    · exact ih (p0Step cert? st t) tx hmem hsig

lemma p0_foldl_noop (cert? : Option Certificate) (txs : List TxRecord) (st : LoopState)
    (hcov : ∀ tx ∈ txs, truthyOptStr tx.sender_signature = true →
      ∃ row, lookupTx st.store tx.transaction_id = some row) :
    (txs.foldl (p0Step cert?) st).store = st.store := by
  induction txs generalizing st with
  | nil => rfl
  | cons t rest ih =>
    rw [List.foldl_cons]
    have hstep : (p0Step cert? st t).store = st.store := by
      unfold p0Step
      dsimp only
      cases hl : lookupTx st.store t.transaction_id with
      | some row => rfl
      | none =>
        cases hsig : truthyOptStr t.sender_signature with
        | true =>
          obtain ⟨row, hrow⟩ := hcov t (by simp) hsig
          rw [hrow] at hl
          cases hl
        | false => simp [hsig]
    have hcov2 : ∀ tx ∈ rest, truthyOptStr tx.sender_signature = true →
        ∃ row, lookupTx (p0Step cert? st t).store tx.transaction_id = some row := by
      intro tx hm hs
      obtain ⟨row, hrow⟩ := hcov tx (List.mem_cons_of_mem _ hm) hs
      exact ⟨row, by rw [hstep]; exact hrow⟩
    rw [ih _ hcov2, hstep]

/-- C5 (amended): the change-certificate variant (`part_000`) is
idempotent: running sync twice in succession with the same certificate
and batch leaves the second run's store identical to the first run's — no
receiver is credited twice for the same transaction id — and both runs
return the same processed id list, the same total_spent and the same
balance.  The refund variant (`transactionRoutes.ts`) is NOT idempotent:
its second run returns an empty processed list and re-credits the unspent
refund to the certificate holder (see counterexample). -/
theorem syncP0_idempotent (CM : CryptoModel) (s0 : Store) (req : SyncRequest)
    (txs : List TxRecord) (ts1 n1 e1 ts2 n2 e2 : String)
    (r1 r2 : SyncOkP0) (s1 s2 : Store)
    (ht : req.transactions = some txs)
    (h1 : syncP0 CM s0 req ts1 n1 e1 = (Sum.inr r1, s1))
    (h2 : syncP0 CM s1 req ts2 n2 e2 = (Sum.inr r2, s2)) :
    s2 = s1 ∧ r2.processed = r1.processed ∧ r2.total_spent = r1.total_spent ∧
    r2.balance = r1.balance := by
  have hp : syncPrecheck CM req = none := by
    cases hpc : syncPrecheck CM req with
    | none => rfl
    | some err =>
      unfold syncP0 at h1
      rw [hpc] at h1
      simp at h1
  rw [syncP0_eq CM s0 req txs ts1 n1 e1 ht hp] at h1
  rw [syncP0_eq CM s1 req txs ts2 n2 e2 ht hp] at h2
  simp only [Prod.mk.injEq, Sum.inr.injEq] at h1 h2
  obtain ⟨hr1, hs1⟩ := h1
  obtain ⟨hr2, hs2⟩ := h2
  have hcov : ∀ tx ∈ txs, truthyOptStr tx.sender_signature = true →
      ∃ row, lookupTx s1 tx.transaction_id = some row := by
    intro tx hm hs
    rw [← hs1]
    unfold p0Loop
    exact p0_foldl_covers req.certificate txs _ tx hm hs
  have hnoop : (p0Loop req.certificate s1 txs).store = s1 := by
    unfold p0Loop
    exact p0_foldl_noop req.certificate txs { results := [], totalSpent := 0, store := s1 } hcov
  refine ⟨by rw [← hs2, hnoop], ?_, ?_, ?_⟩
  · rw [← hr1, ← hr2,
      (p0Respond_components CM req (p0Loop req.certificate s1 txs) ts2 n2 e2).2.1,
      (p0Respond_components CM req (p0Loop req.certificate s0 txs) ts1 n1 e1).2.1]
    unfold p0Loop
    rw [p0_foldl_results, p0_foldl_results]
  · rw [← hr1, ← hr2,
      (p0Respond_components CM req (p0Loop req.certificate s1 txs) ts2 n2 e2).2.2.1,
      (p0Respond_components CM req (p0Loop req.certificate s0 txs) ts1 n1 e1).2.2.1]
    unfold p0Loop
    rw [p0_foldl_totalSpent, p0_foldl_totalSpent]
  · rw [← hr1, ← hr2,
      (p0Respond_components CM req (p0Loop req.certificate s1 txs) ts2 n2 e2).2.2.2,
      (p0Respond_components CM req (p0Loop req.certificate s0 txs) ts1 n1 e1).2.2.2]
    rw [hnoop, hs1]

theorem syncP0_idempotent_witness :
    wStoreRun1 = wStoreRun1 ∧
    (wRespRun "T2" "N2" "E2").processed = (wRespRun "T1" "N1" "E1").processed ∧
    (wRespRun "T2" "N2" "E2").total_spent = (wRespRun "T1" "N1" "E1").total_spent ∧
    (wRespRun "T2" "N2" "E2").balance = (wRespRun "T1" "N1" "E1").balance :=
  syncP0_idempotent demoCrypto wStoreAlice
    { certificate := some wCert, transactions := some [wTx60], user_id := none }
    [wTx60] "T1" "N1" "E1" "T2" "N2" "E2"
    (wRespRun "T1" "N1" "E1") (wRespRun "T2" "N2" "E2") wStoreRun1 wStoreRun1
    rfl (by decide) (by decide)

/-- C5 counterexample: the refund variant is not idempotent.  Submitting
the same batch twice under the same valid certificate yields processed
lists `["t1"]` then `[]` (not the same), and the second run credits the
certificate holder again: alice's balance goes 0 → 40 → 140, so the
second run is not a no-op on balances. -/
theorem syncTR_not_idempotent_cx :
    syncTR demoCrypto wStoreAlice
        { certificate := some wCert, transactions := some [wTx60], user_id := none } =
      (Sum.inr { status := "ok", processed := ["t1"], refunded := 40
                 total_spent := 60, balance := 40 }, wStoreTR1) ∧
    syncTR demoCrypto wStoreTR1
        { certificate := some wCert, transactions := some [wTx60], user_id := none } =
      (Sum.inr { status := "ok", processed := [], refunded := 100
                 total_spent := 0, balance := 140 }, wStoreTR2) := by decide

/-! ### Injectivity of decimal rendering (for canonicalization) -/

lemma digitVal_digitChar (d : Nat) (h : d < 10) : digitVal (Nat.digitChar d) = d := by
  interval_cases d <;> decide

lemma toDigitsCore_append10 : ∀ (fuel n : Nat) (ds : List Char),
    Nat.toDigitsCore 10 fuel n ds = Nat.toDigitsCore 10 fuel n [] ++ ds := by
  intro fuel
  induction fuel with
  | zero =>
    intro n ds
    simp [Nat.toDigitsCore]
  | succ f ih =>
    intro n ds
    simp only [Nat.toDigitsCore]
    by_cases h : n / 10 = 0
    · simp [h]
    · simp only [h, if_false]
      rw [ih (n / 10) (Nat.digitChar (n % 10) :: ds), ih (n / 10) [Nat.digitChar (n % 10)]]
      simp

lemma decodeDigits_append (l : List Char) (c : Char) :
    decodeDigits (l ++ [c]) = 10 * decodeDigits l + digitVal c := by
  unfold decodeDigits
  rw [List.foldl_append]
  rfl

lemma decode_toDigitsCore : ∀ (fuel n : Nat), n < fuel →
    decodeDigits (Nat.toDigitsCore 10 fuel n []) = n := by
  intro fuel
  induction fuel with
  | zero =>
    intro n h
    omega
  | succ f ih =>
    intro n h
    simp only [Nat.toDigitsCore]
    by_cases h0 : n / 10 = 0
    · have hn : n < 10 := by
        rcases Nat.lt_or_ge n 10 with h1 | h1
        · exact h1
        · exact absurd h0 (by
            have := Nat.div_le_div_right (c := 10) h1
            simp at this
            omega)
      simp only [h0, if_true]
      unfold decodeDigits
      simp only [List.foldl_cons, List.foldl_nil]
      rw [digitVal_digitChar (n % 10) (Nat.mod_lt _ (by norm_num))]
      omega
    · have hn0 : 0 < n := by
        rcases Nat.eq_zero_or_pos n with rfl | h2
        · simp at h0
        · exact h2
      simp only [h0, if_false]
      rw [toDigitsCore_append10, decodeDigits_append]
      have hlt : n / 10 < f := by
        have h1 : n / 10 < n := Nat.div_lt_self hn0 (by norm_num)
        omega
      rw [ih (n / 10) hlt, digitVal_digitChar (n % 10) (Nat.mod_lt _ (by norm_num))]
      omega

lemma Nat_repr_injective (m n : Nat) (h : Nat.repr m = Nat.repr n) : m = n := by
  have h2 : Nat.toDigits 10 m = Nat.toDigits 10 n := congrArg String.data h
  have hm : decodeDigits (Nat.toDigits 10 m) = m := decode_toDigitsCore (m + 1) m (by omega)
  have hn : decodeDigits (Nat.toDigits 10 n) = n := decode_toDigitsCore (n + 1) n (by omega)
  rw [← hm, ← hn, h2]

lemma toDigitsCore_mem10 : ∀ (fuel n : Nat) (ds : List Char) (c : Char),
    c ∈ Nat.toDigitsCore 10 fuel n ds → c ∈ ds ∨ ∃ d, d < 10 ∧ c = Nat.digitChar d := by
  intro fuel
  induction fuel with
  | zero =>
    intro n ds c h
    left
    simpa [Nat.toDigitsCore] using h
  | succ f ih =>
    intro n ds c h
    simp only [Nat.toDigitsCore] at h
    by_cases h0 : n / 10 = 0
    · rw [if_pos h0] at h
      rcases List.mem_cons.mp h with rfl | hmem
      · right
        exact ⟨n % 10, Nat.mod_lt _ (by norm_num), rfl⟩
      · left
        exact hmem
    · rw [if_neg h0] at h
      rcases ih (n / 10) (Nat.digitChar (n % 10) :: ds) c h with hmem | hd
      · rcases List.mem_cons.mp hmem with rfl | h2
        · right
          exact ⟨n % 10, Nat.mod_lt _ (by norm_num), rfl⟩
        · left
          exact h2
      · right
        exact hd

lemma repr_no_dash (n : Nat) (hmem : Char.ofNat 45 ∈ (Nat.repr n).data) : False := by
  rcases toDigitsCore_mem10 (n + 1) n [] (Char.ofNat 45) hmem with h | ⟨d, hd, he⟩
  · simp at h
  · interval_cases d <;> exact absurd he (by decide)

lemma Int_repr_injective (m n : Int) (h : Int.repr m = Int.repr n) : m = n := by
  cases m with
  | ofNat a =>
    cases n with
    | ofNat b =>
      simp only [Int.repr] at h
      exact congrArg Int.ofNat (Nat_repr_injective a b h)
    | negSucc b =>
      simp only [Int.repr] at h
      exfalso
      apply repr_no_dash a
      rw [h, String.data_append]
      exact List.mem_append_left _ (by decide)
  | negSucc a =>
    cases n with
    | ofNat b =>
      simp only [Int.repr] at h
      exfalso
      apply repr_no_dash b
      rw [← h, String.data_append]
      exact List.mem_append_left _ (by decide)
    | negSucc b =>
      simp only [Int.repr] at h
      have hd := congrArg String.data h
      simp only [String.data_append] at hd
      have h2 : Nat.repr (a + 1) = Nat.repr (b + 1) :=
        String.ext (List.append_cancel_left hd)
      have := Nat_repr_injective (a + 1) (b + 1) h2
      have hab : a = b := by omega
      rw [hab]

lemma joinBar_cons_cons (s t : String) (rest : List String) :
    joinBar (s :: t :: rest) = s ++ "|" ++ joinBar (t :: rest) := rfl

lemma joinBar_ne_single_diff : ∀ (pre : List String) (x y : String) (suf : List String),
    x ≠ y → joinBar (pre ++ x :: suf) ≠ joinBar (pre ++ y :: suf) := by
  intro pre
  induction pre with
  | nil =>
    intro x y suf hxy
    cases suf with
    | nil => simpa [joinBar] using hxy
    | cons s rest =>
      intro he
      apply hxy
      have hd := congrArg String.data he
      simp only [List.nil_append, joinBar_cons_cons, String.data_append,
        List.append_assoc] at hd
      have hlen : x.data.length = y.data.length := by
        have := congrArg List.length hd
        simp only [List.length_append] at this
        omega
      exact String.ext (List.append_inj hd hlen).1
  | cons p rest ih =>
    intro x y suf hxy he
    apply ih x y suf hxy
    rcases h1 : rest ++ x :: suf with _ | ⟨c1, cs1⟩
    · exact absurd h1 (by simp)
    rcases h2 : rest ++ y :: suf with _ | ⟨c2, cs2⟩
    · exact absurd h2 (by simp)
    rw [List.cons_append, List.cons_append] at he
    rw [h1, h2] at he
    rw [joinBar_cons_cons, joinBar_cons_cons] at he
    have hd := congrArg String.data he
    simp only [String.data_append, List.append_assoc] at hd
    have h3 : (joinBar (c1 :: cs1)).data = (joinBar (c2 :: cs2)).data :=
      List.append_cancel_left (List.append_cancel_left hd)
    exact String.ext h3

lemma strBeq_false_of_ne {a b : String} (h : a ≠ b) : (a == b) = false := by
  simp [h]

lemma verifyCert_false_of_oneFieldChange (CM : CryptoModel) (c c' : Certificate)
    (hsig : c.signature = CM.sign (certCanonical c))
    (hch : oneFieldChange c c') : verifyCert CM c' = false := by
  unfold verifyCert
  rw [CM.verify_eq]
  rcases hch with ⟨h1, h2, h3, h4, h5, h6, h7⟩ | ⟨h1, h2, h3, h4, h5, h6, h7⟩ |
    ⟨h1, h2, h3, h4, h5, h6, h7⟩ | ⟨h1, h2, h3, h4, h5, h6, h7⟩ |
    ⟨h1, h2, h3, h4, h5, h6, h7⟩ | ⟨h1, h2, h3, h4, h5, h6, h7⟩ |
    ⟨h1, h2, h3, h4, h5, h6, h7⟩
  · rw [h7, hsig]
    apply strBeq_false_of_ne
    intro heq
    have hc := CM.sign_injective heq
    unfold certCanonical at hc
    rw [h2, h3, h4, h5, h6] at hc
    exact joinBar_ne_single_diff [] c.user_id c'.user_id
      [c.device_id, Int.repr c.tip_wallet_balance, c.timestamp, c.nonce, c.expiration]
      (Ne.symm h1) hc
  · rw [h7, hsig]
    apply strBeq_false_of_ne
    intro heq
    have hc := CM.sign_injective heq
    unfold certCanonical at hc
    rw [h1, h3, h4, h5, h6] at hc
    exact joinBar_ne_single_diff [c.user_id] c.device_id c'.device_id
      [Int.repr c.tip_wallet_balance, c.timestamp, c.nonce, c.expiration]
      (Ne.symm h2) hc
  · rw [h7, hsig]
    apply strBeq_false_of_ne
    intro heq
    have hc := CM.sign_injective heq
    unfold certCanonical at hc
    rw [h1, h2, h4, h5, h6] at hc
    exact joinBar_ne_single_diff [c.user_id, c.device_id]
      (Int.repr c.tip_wallet_balance) (Int.repr c'.tip_wallet_balance)
      [c.timestamp, c.nonce, c.expiration]
      (fun he => h3 (Int_repr_injective _ _ he).symm) hc
  · rw [h7, hsig]
    apply strBeq_false_of_ne
    intro heq
    have hc := CM.sign_injective heq
    unfold certCanonical at hc
    rw [h1, h2, h3, h5, h6] at hc
    exact joinBar_ne_single_diff [c.user_id, c.device_id, Int.repr c.tip_wallet_balance]
      c.timestamp c'.timestamp [c.nonce, c.expiration] (Ne.symm h4) hc
  · rw [h7, hsig]
    apply strBeq_false_of_ne
    intro heq
    have hc := CM.sign_injective heq
    unfold certCanonical at hc
    rw [h1, h2, h3, h4, h6] at hc
    exact joinBar_ne_single_diff
      [c.user_id, c.device_id, Int.repr c.tip_wallet_balance, c.timestamp]
      c.nonce c'.nonce [c.expiration] (Ne.symm h5) hc
  · rw [h7, hsig]
    apply strBeq_false_of_ne
    intro heq
    have hc := CM.sign_injective heq
    unfold certCanonical at hc
    rw [h1, h2, h3, h4, h5] at hc
    exact joinBar_ne_single_diff
      [c.user_id, c.device_id, Int.repr c.tip_wallet_balance, c.timestamp, c.nonce]
      c.expiration c'.expiration [] (Ne.symm h6) hc
  · have hcan : certCanonical c' = certCanonical c := by
      unfold certCanonical
      rw [h1, h2, h3, h4, h5, h6]
    rw [hcan, ← hsig]
    exact strBeq_false_of_ne h7

lemma cert_roundtrip_core (CM : CryptoModel) (c : Certificate)
    (hsig : c.signature = CM.sign (certCanonical c)) :
    verifyCert CM c = true ∧ ∀ c', oneFieldChange c c' → verifyCert CM c' = false :=
  ⟨verifyCert_of_signed CM c hsig,
   fun c' hch => verifyCert_false_of_oneFieldChange CM c c' hsig hch⟩

/-- C6: every certificate produced by the issuance path
(`POST /certificate`) or by the change-reissuance path of the
change-certificate sync verifies: both sides canonicalize the six
non-signature fields in the order `user_id, device_id,
tip_wallet_balance, timestamp, nonce, expiration` joined by `'|'` and the
stored signature is the server's signature of that canonical string; and
changing any single field of such a certificate (including its signature)
makes verification return false. -/
theorem certificate_roundtrip (CM : CryptoModel) (store store2 : Store)
    (user_id device_id : String) (amount : Int) (ts n e : String) (c : Certificate) :
    (issueCertificate CM store user_id device_id amount ts n e = (Sum.inr c, store2) →
      verifyCert CM c = true ∧ ∀ c', oneFieldChange c c' → verifyCert CM c' = false) ∧
    (∀ (req : SyncRequest) (store0 : Store) (r : SyncOkP0) (st2 : Store),
      syncP0 CM store0 req ts n e = (Sum.inr r, st2) → r.new_certificate = some c →
      verifyCert CM c = true ∧ ∀ c', oneFieldChange c c' → verifyCert CM c' = false) := by
  constructor
  · intro hiss
    unfold issueCertificate at hiss
    cases hl : lookupUser store user_id with
    | none =>
      rw [hl] at hiss
      simp at hiss
    | some user =>
      rw [hl] at hiss
      dsimp only at hiss
      by_cases hb : user.balance < amount
      · rw [if_pos hb] at hiss
        simp at hiss
      · rw [if_neg hb] at hiss
        simp only [Prod.mk.injEq, Sum.inr.injEq] at hiss
        obtain ⟨hcc, _⟩ := hiss
        subst hcc
        exact cert_roundtrip_core CM _ rfl
  · intro req store0 r st2 hsync hnc
    obtain ⟨txs, ht⟩ : ∃ txs, req.transactions = some txs := by
      cases htx : req.transactions with
      | none =>
        unfold syncP0 syncPrecheck at hsync
        rw [htx] at hsync
        simp at hsync
      | some txs => exact ⟨txs, rfl⟩
    have hp : syncPrecheck CM req = none := by
      cases hpc : syncPrecheck CM req with
      | none => rfl
      | some err =>
        unfold syncP0 at hsync
        rw [hpc] at hsync
        simp at hsync
    rw [syncP0_eq CM store0 req txs ts n e ht hp] at hsync
    simp only [Prod.mk.injEq, Sum.inr.injEq] at hsync
    obtain ⟨hr, _⟩ := hsync
    rw [← hr] at hnc
    unfold p0Respond at hnc
    cases hc : req.certificate with
    | none =>
      rw [hc] at hnc
      simp at hnc
    | some c0 =>
      rw [hc] at hnc
      dsimp only at hnc
      by_cases hpos : c0.tip_wallet_balance -
          (p0Loop (some c0) store0 txs).totalSpent > 0
      · rw [if_pos hpos] at hnc
        simp only [Option.some.injEq] at hnc
        subst hnc
        exact cert_roundtrip_core CM _ rfl
      · rw [if_neg hpos] at hnc
        simp at hnc

theorem certificate_roundtrip_witness :
    verifyCert demoCrypto wCertIssued = true ∧
    oneFieldChange wCertIssued wCertMut ∧
    verifyCert demoCrypto wCertMut = false := by
  have h := (certificate_roundtrip demoCrypto wStoreDup
      { users := [{ id := "bob", balance := 3, public_key := "BK" }]
        transactions := [wRowT1] }
      "bob" "dev9" 7 "T" "N" "E" wCertIssued).1 (by decide)
  refine ⟨h.1, ?_, h.2 wCertMut ?_⟩ <;>
    · unfold oneFieldChange
      decide

/-- C2 counterexample: in the refund variant, a sync presenting the valid
certificate for 100 with a batch summing to 60 (so 0 < S < B) returns a
response that carries no certificate at all — its fields are exactly
status, processed, refunded, total_spent and balance, with the unspent
remainder reported as `refunded = 40` and credited to the holder —
refuting the claim that every such sync call's response contains a new
certificate for `B - S`. -/
theorem syncTR_no_change_certificate_cx :
    (0 : Int) < 60 ∧ (60 : Int) < wCert.tip_wallet_balance ∧
    syncTR demoCrypto wStoreAlice
        { certificate := some wCert, transactions := some [wTx60], user_id := none } =
      (Sum.inr { status := "ok", processed := ["t1"], refunded := 40
                 total_spent := 60, balance := 40 }, wStoreTR1) := by decide
